import Mathlib

/-!
Shallow embedding of the rcrefcell library (src/lib.rs).

The library wraps a reference-counted allocation holding a value behind an
interior-mutability guard.  We model the runtime state as a heap: a list of
allocation slots, each either freed (none) or holding an RcBox.  An RcBox
records

  * strong       : number of owning handles (Rc strong count);
  * weakInternal : the internal weak count of the allocation, which includes
    the one implicit weak reference held collectively by the strong handles
    while any strong handle exists (as in the Rust standard library, the
    internal weak count of a fresh allocation is 1);
  * flag         : the interior-mutability borrow flag: 0 when no guard is
    outstanding, n > 0 when n shared read guards are outstanding, -1 when the
    exclusive write guard is outstanding;
  * value        : the stored value, none once it has been destroyed (when the
    strong count reached 0).

Handles (Shared, WeakShared) store the index of their allocation slot; an
empty weak handle stores none.  A raw pointer to the value is modelled by the
slot index.  Operations that can signal an unrecoverable runtime error
(a borrow conflict, or unwrap of an absent upgrade) return Option, with none
standing for the error.
-/

namespace RcLib

structure RcBox (T : Type) where
  strong : Nat
  weakInternal : Nat
  flag : Int
  value : Option T
deriving DecidableEq

abbrev Heap (T : Type) := List (Option (RcBox T))

variable {T : Type}

/-- Look up slot i of the heap; none when the slot is out of range or freed. -/
def getBox : Heap T → Nat → Option (RcBox T)
  | [], _ => none
  | ob :: _, 0 => ob
  | _ :: σ2, n+1 => getBox σ2 n

/-- Overwrite slot i of the heap (no-op when out of range). -/
def setBox : Heap T → Nat → Option (RcBox T) → Heap T
  | [], _, _ => []
  | _ :: σ2, 0, ob => ob :: σ2
  | x :: σ2, n+1, ob => x :: setBox σ2 n ob

/-- An owning handle: `pub struct Shared<T> { v: Rc<RefCell<T>> }`. -/
structure Shared (T : Type) where
  id : Nat
deriving DecidableEq

/-- An observing handle: `pub struct WeakShared<T> { v: Weak<RefCell<T>> }`.
The slot index is none for a weak handle made by `Weak::new()`. -/
structure WeakShared (T : Type) where
  id : Option Nat
deriving DecidableEq

/-- A shared read guard (`Ref<T>`), remembering its allocation slot. -/
structure RefGuard where
  id : Nat
deriving DecidableEq

/-- An exclusive write guard (`RefMut<T>`), remembering its allocation slot. -/
structure RefMutGuard where
  id : Nat
deriving DecidableEq

/-- `Shared::new`: `Shared{v: Rc::new(RefCell::new(t))}` — a fresh allocation
with strong 1, internal weak 1 (the implicit slot), no guard, the value live. -/
def Shared.new (σ : Heap T) (t : T) : Heap T × Shared T :=
  (σ ++ [some ⟨1, 1, 0, some t⟩], ⟨σ.length⟩)

/-- `Shared::new_from(rc)`: wraps an existing allocation reference, changing
no counts. -/
def Shared.new_from (i : Nat) : Shared T :=
  ⟨i⟩

/-- `Shared::borrow`: `RefCell::borrow` succeeds exactly when no write guard
is outstanding (flag ≥ 0) and bumps the flag; a conflict panics (none). -/
def Shared.borrow (σ : Heap T) (s : Shared T) : Option (Heap T × RefGuard) :=
  match getBox σ s.id with
  | some b =>
      if 0 ≤ b.flag then
        some (setBox σ s.id (some { b with flag := b.flag + 1 }), ⟨s.id⟩)
      else
        none
  | none => none

/-- `Shared::borrow_mut`: `RefCell::borrow_mut` succeeds exactly when no guard
at all is outstanding (flag = 0) and sets the flag to -1; otherwise panics. -/
def Shared.borrow_mut (σ : Heap T) (s : Shared T) : Option (Heap T × RefMutGuard) :=
  match getBox σ s.id with
  | some b =>
      if b.flag = 0 then
        some (setBox σ s.id (some { b with flag := -1 }), ⟨s.id⟩)
      else
        none
  | none => none

/-- `Shared::as_ptr`: `RefCell::as_ptr`, the raw address of the value,
modelled by the slot index.  It consults no counters and cannot fail. -/
def Shared.as_ptr (s : Shared T) : Nat :=
  s.id

/-- Reading through a raw pointer: yields the stored value if the slot is
still allocated and the value still live; none models a read of freed
memory. -/
def readPtr (σ : Heap T) (p : Nat) : Option T :=
  match getBox σ p with
  | some b => b.value
  | none => none

/-- `Shared::clone`: `Rc::clone`, strong count + 1 on the same allocation. -/
def Shared.clone (σ : Heap T) (s : Shared T) : Heap T × Shared T :=
  match getBox σ s.id with
  | some b => (setBox σ s.id (some { b with strong := b.strong + 1 }), ⟨s.id⟩)
  | none => (σ, ⟨s.id⟩)

/-- `Shared::downgrade`: `Rc::downgrade`, internal weak count + 1, strong
count untouched. -/
def Shared.downgrade (σ : Heap T) (s : Shared T) : Heap T × WeakShared T :=
  match getBox σ s.id with
  | some b => (setBox σ s.id (some { b with weakInternal := b.weakInternal + 1 }), ⟨some s.id⟩)
  | none => (σ, ⟨some s.id⟩)

/-- `Shared::strong_count`: `Rc::strong_count`. -/
def Shared.strong_count (σ : Heap T) (s : Shared T) : Nat :=
  match getBox σ s.id with
  | some b => b.strong
  | none => 0

/-- `Shared::weak_count`: `Rc::weak_count`, the internal weak count minus the
implicit slot. -/
def Shared.weak_count (σ : Heap T) (s : Shared T) : Nat :=
  match getBox σ s.id with
  | some b => b.weakInternal - 1
  | none => 0

/-- `impl Deref for Shared`: `unsafe { self.as_ptr().as_ref().unwrap() }` —
a raw read through the pointer, performed without touching the borrow flag. -/
def Shared.deref (σ : Heap T) (s : Shared T) : Option T :=
  readPtr σ (Shared.as_ptr s)

/-- `impl Display for Shared` (and Debug, which is identical): formats the
value obtained from `self.deref()`. -/
def Shared.display (σ : Heap T) (s : Shared T) : Option T :=
  Shared.deref σ s

/-- Dropping an owning handle: strong count - 1; at 0 the value is destroyed
and the implicit weak slot released; at internal weak count 0 the slot is
freed. -/
def Shared.drop (σ : Heap T) (s : Shared T) : Heap T :=
  match getBox σ s.id with
  | some b =>
      if b.strong - 1 = 0 then
        if b.weakInternal - 1 = 0 then
          setBox σ s.id none
        else
          setBox σ s.id (some { b with strong := 0, weakInternal := b.weakInternal - 1,
                                       value := none })
      else
        setBox σ s.id (some { b with strong := b.strong - 1 })
  | none => σ

/-- Dropping a read guard: flag - 1. -/
def RefGuard.drop (σ : Heap T) (g : RefGuard) : Heap T :=
  match getBox σ g.id with
  | some b => setBox σ g.id (some { b with flag := b.flag - 1 })
  | none => σ

/-- Dropping a write guard: flag + 1 (back from -1 to 0). -/
def RefMutGuard.drop (σ : Heap T) (g : RefMutGuard) : Heap T :=
  match getBox σ g.id with
  | some b => setBox σ g.id (some { b with flag := b.flag + 1 })
  | none => σ

/-- Reading the value through a read guard (`&*guard`). -/
def RefGuard.get (σ : Heap T) (g : RefGuard) : Option T :=
  readPtr σ g.id

/-- Assigning through a write guard (`*guard = v` or equivalent mutation). -/
def RefMutGuard.set (σ : Heap T) (g : RefMutGuard) (v : T) : Heap T :=
  match getBox σ g.id with
  | some b => setBox σ g.id (some { b with value := some v })
  | none => σ

/-- `WeakShared::new`: `Weak::new()`, bound to no allocation. -/
def WeakShared.new : WeakShared T :=
  ⟨none⟩

/-- `WeakShared::new_from(weak)`: wraps an existing weak reference. -/
def WeakShared.new_from (i : Option Nat) : WeakShared T :=
  ⟨i⟩

/-- `WeakShared::clone`: `Weak::clone`; on a bound handle internal weak count
+ 1, on an empty handle nothing to count. -/
def WeakShared.clone (σ : Heap T) (w : WeakShared T) : Heap T × WeakShared T :=
  match w.id with
  | none => (σ, ⟨none⟩)
  | some i =>
      match getBox σ i with
      | some b => (setBox σ i (some { b with weakInternal := b.weakInternal + 1 }), ⟨some i⟩)
      | none => (σ, ⟨some i⟩)

/-- `WeakShared::upgrade`: `Weak::upgrade` yields a new owning handle
(strong count + 1) exactly when the strong count is positive; the result is
wrapped by `Shared::new_from`. -/
def WeakShared.upgrade (σ : Heap T) (w : WeakShared T) : Heap T × Option (Shared T) :=
  match w.id with
  | none => (σ, none)
  | some i =>
      match getBox σ i with
      | some b =>
          if 0 < b.strong then
            (setBox σ i (some { b with strong := b.strong + 1 }), some (Shared.new_from i))
          else
            (σ, none)
      | none => (σ, none)

/-- `WeakShared::strong_count`: `Weak::strong_count`, 0 for an empty handle
or a freed slot, else the allocation's strong count. -/
def WeakShared.strong_count (σ : Heap T) (w : WeakShared T) : Nat :=
  match w.id with
  | none => 0
  | some i =>
      match getBox σ i with
      | some b => b.strong
      | none => 0

/-- `WeakShared::weak_count`: `Weak::weak_count` — the number of weak
references (internal count minus the implicit slot) while the strong count is
positive, and 0 once no strong reference remains. -/
def WeakShared.weak_count (σ : Heap T) (w : WeakShared T) : Nat :=
  match w.id with
  | none => 0
  | some i =>
      match getBox σ i with
      | some b => if 0 < b.strong then b.weakInternal - 1 else 0
      | none => 0

/-- `WeakShared::as_ptr`: `self.upgrade().unwrap().as_ptr()` — the temporary
owning handle produced by upgrade is dropped again at the end of the
statement; an absent upgrade makes the unwrap panic (none). -/
def WeakShared.as_ptr (σ : Heap T) (w : WeakShared T) : Option (Heap T × Nat) :=
  match WeakShared.upgrade σ w with
  | (σ1, some s) => some (Shared.drop σ1 s, Shared.as_ptr s)
  | (_, none) => none

/-- `impl Deref for WeakShared`: `unsafe { self.as_ptr().as_ref().unwrap() }`
— obtains the raw pointer (panicking if the referent is dead) and reads
through it. -/
def WeakShared.deref (σ : Heap T) (w : WeakShared T) : Option (Heap T × T) :=
  match WeakShared.as_ptr σ w with
  | some (σ1, p) =>
      match readPtr σ1 p with
      | some v => some (σ1, v)
      | none => none
  | none => none

/-- What the weak formatting path prints: either the sentinel text
"No ref" or the referent's value. -/
inductive WeakOut (T : Type) where
  | noRef : WeakOut T
  | val : T → WeakOut T
deriving DecidableEq

/-- `impl Display for WeakShared` (and Debug, which is identical): prints the
dereferenced value when `self.weak_count() > 0`, the sentinel otherwise. -/
def WeakShared.display (σ : Heap T) (w : WeakShared T) : Option (Heap T × WeakOut T) :=
  if 0 < WeakShared.weak_count σ w then
    match WeakShared.deref σ w with
    | some (σ1, v) => some (σ1, WeakOut.val v)
    | none => none
  else
    some (σ, WeakOut.noRef)

/-- A slot that holds a box lies inside the heap. -/
theorem lt_length_of_getBox_some {σ : Heap T} {i : Nat} {b : RcBox T}
    (h : getBox σ i = some b) : i < σ.length := by
  induction σ generalizing i with
  | nil => simp [getBox] at h
  | cons x σ2 ih =>
      cases i with
      | zero => simp
      | succ n =>
          simp only [getBox] at h
          simpa using ih h

/-- Reading back a slot just written (inside the heap). -/
theorem getBox_setBox_self {σ : Heap T} {i : Nat} (ob : Option (RcBox T))
    (h : i < σ.length) : getBox (setBox σ i ob) i = ob := by
  induction σ generalizing i with
  | nil => simp at h
  | cons x σ2 ih =>
      cases i with
      | zero => rfl
      | succ n =>
          simp only [setBox, getBox]
          exact ih (by simpa using h)

/-- Writing does not change the heap's length. -/
theorem length_setBox (σ : Heap T) (i : Nat) (ob : Option (RcBox T)) :
    (setBox σ i ob).length = σ.length := by
  induction σ generalizing i with
  | nil => rfl
  | cons x σ2 ih =>
      cases i with
      | zero => rfl
      | succ n => simpa [setBox] using ih n

/-- The slot appended at the end of the heap is read back. -/
theorem getBox_append (σ : Heap T) (ob : Option (RcBox T)) :
    getBox (σ ++ [ob]) σ.length = ob := by
  induction σ with
  | nil => rfl
  | cons x σ2 ih => simpa [getBox] using ih

/-- Writing a slot twice keeps only the second write. -/
theorem setBox_setBox (σ : Heap T) (i : Nat) (a b : Option (RcBox T)) :
    setBox (setBox σ i a) i b = setBox σ i b := by
  induction σ generalizing i with
  | nil => rfl
  | cons x σ2 ih =>
      cases i with
      | zero => rfl
      | succ n => simp [setBox, ih]

/-- Claim C6: constructing a SharedCell from any value yields strong count 1
and weak count 0 (and, the construction being a total function, it never
fails). -/
theorem new_counts (σ : Heap T) (t : T) :
    Shared.strong_count (Shared.new σ t).1 (Shared.new σ t).2 = 1 ∧
    Shared.weak_count (Shared.new σ t).1 (Shared.new σ t).2 = 0 := by
  constructor <;>
    simp [Shared.new, Shared.strong_count, Shared.weak_count, getBox_append]

/-- Claim C1: upgrade returns a new owning handle exactly when the strong
count is positive at the moment of the call, and on success the strong count
read through the new handle is the pre-upgrade strong count plus 1; an empty
WeakCell always upgrades to the absent result. -/
theorem upgrade_spec (σ : Heap T) (w : WeakShared T) :
    (0 < WeakShared.strong_count σ w →
      ∃ s : Shared T, (WeakShared.upgrade σ w).2 = some s ∧
        Shared.strong_count (WeakShared.upgrade σ w).1 s
          = WeakShared.strong_count σ w + 1) ∧
    (WeakShared.strong_count σ w = 0 → (WeakShared.upgrade σ w).2 = none) ∧
    (WeakShared.upgrade σ (WeakShared.new : WeakShared T)).2 = none := by
  refine ⟨?_, ?_, rfl⟩
  · intro hpos
    cases hw : w.id with
    | none => simp [WeakShared.strong_count, hw] at hpos
    | some i =>
        cases hb : getBox σ i with
        | none => simp [WeakShared.strong_count, hw, hb] at hpos
        | some b =>
            have hlt := lt_length_of_getBox_some hb
            have hbs : 0 < b.strong := by
              simpa [WeakShared.strong_count, hw, hb] using hpos
            have hget := getBox_setBox_self
              (σ := σ) (i := i) (some { b with strong := b.strong + 1 }) hlt
            refine ⟨Shared.new_from i, ?_, ?_⟩
            · simp [WeakShared.upgrade, hw, hb, hbs]
            · simp [WeakShared.upgrade, hw, hb, hbs, Shared.strong_count,
                    Shared.new_from, hget, WeakShared.strong_count]
  · intro hzero
    cases hw : w.id with
    | none => simp [WeakShared.upgrade, hw]
    | some i =>
        cases hb : getBox σ i with
        | none => simp [WeakShared.upgrade, hw, hb]
        | some b =>
            have hns : ¬ 0 < b.strong := by
              simp [WeakShared.strong_count, hw, hb] at hzero
              omega
            simp [WeakShared.upgrade, hw, hb, hns]

/-- Witness for upgrade_spec: a live allocation with one owner upgrades to a
handle reading strong count 2. -/
theorem upgrade_spec_witness :
    0 < WeakShared.strong_count ([some ⟨1, 1, 0, some 3⟩] : Heap Nat) ⟨some 0⟩ ∧
    ∃ s : Shared Nat,
      (WeakShared.upgrade ([some ⟨1, 1, 0, some 3⟩] : Heap Nat) ⟨some 0⟩).2 = some s ∧
      Shared.strong_count (WeakShared.upgrade ([some ⟨1, 1, 0, some 3⟩] : Heap Nat) ⟨some 0⟩).1 s
        = WeakShared.strong_count ([some ⟨1, 1, 0, some 3⟩] : Heap Nat) ⟨some 0⟩ + 1 :=
  ⟨by decide, (upgrade_spec ([some ⟨1, 1, 0, some 3⟩] : Heap Nat) ⟨some 0⟩).1 (by decide)⟩

/-- Claim C2: with the borrow flag encoding the outstanding guards (0 none,
n > 0 that many read guards, negative the write guard), acquiring a read
guard succeeds exactly when no write guard is outstanding, acquiring the
write guard succeeds exactly when no guard at all is outstanding, and a
successful acquisition records itself in the flag; the failing acquisitions
return the unrecoverable-error result. -/
theorem borrow_spec (σ : Heap T) (s : Shared T) (b : RcBox T)
    (hbox : getBox σ s.id = some b) :
    ((Shared.borrow σ s).isSome ↔ 0 ≤ b.flag) ∧
    ((Shared.borrow_mut σ s).isSome ↔ b.flag = 0) ∧
    (∀ σ1 g, Shared.borrow σ s = some (σ1, g) →
        getBox σ1 s.id = some { b with flag := b.flag + 1 }) ∧
    (∀ σ1 g, Shared.borrow_mut σ s = some (σ1, g) →
        getBox σ1 s.id = some { b with flag := -1 }) := by
  have hlt := lt_length_of_getBox_some hbox
  refine ⟨?_, ?_, ?_, ?_⟩
  · by_cases hf : 0 ≤ b.flag <;> simp [Shared.borrow, hbox, hf]
  · by_cases hf : b.flag = 0 <;> simp [Shared.borrow_mut, hbox, hf]
  · intro σ1 g h
    by_cases hf : 0 ≤ b.flag
    · simp [Shared.borrow, hbox, hf] at h
      rw [← h.1]
      exact getBox_setBox_self _ hlt
    · simp [Shared.borrow, hbox, hf] at h
  · intro σ1 g h
    by_cases hf : b.flag = 0
    · simp [Shared.borrow_mut, hbox, hf] at h
      rw [← h.1]
      exact getBox_setBox_self _ hlt
    · simp [Shared.borrow_mut, hbox, hf] at h

/-- Witness for borrow_spec: on a guard-free allocation the read acquisition
is possible and the write acquisition is possible. -/
theorem borrow_spec_witness :
    getBox ([some ⟨1, 1, 0, some 3⟩] : Heap Nat) 0 = some ⟨1, 1, 0, some 3⟩ ∧
    ((Shared.borrow ([some ⟨1, 1, 0, some 3⟩] : Heap Nat) ⟨0⟩).isSome ↔
      (0 : Int) ≤ (⟨1, 1, 0, some 3⟩ : RcBox Nat).flag) ∧
    ((Shared.borrow_mut ([some ⟨1, 1, 0, some 3⟩] : Heap Nat) ⟨0⟩).isSome ↔
      (⟨1, 1, 0, some 3⟩ : RcBox Nat).flag = 0) :=
  ⟨rfl, (borrow_spec ([some ⟨1, 1, 0, some 3⟩] : Heap Nat) ⟨0⟩ _ rfl).1,
    (borrow_spec ([some ⟨1, 1, 0, some 3⟩] : Heap Nat) ⟨0⟩ _ rfl).2.1⟩

/-- Claim C3, counterexample: an allocation whose value is dead (strong
count 0) but which still has two outstanding weak observers (internal weak
count 2).  Formatting a WeakShared bound to it prints the sentinel and leaves
the heap untouched — it does not attempt to read the dead value, because the
weak count it consults reads 0 once the strong count is 0. -/
theorem weak_display_dead_counterexample :
    WeakShared.strong_count ([some ⟨0, 2, 0, none⟩] : Heap Nat) ⟨some 0⟩ = 0 ∧
    WeakShared.display ([some ⟨0, 2, 0, none⟩] : Heap Nat) ⟨some 0⟩
      = some ([some ⟨0, 2, 0, none⟩], WeakOut.noRef) := by
  decide

/-- Claim C3 as amended: the weak formatting path prints the sentinel
whenever the weak count it consults reads 0 — which happens both for a
never-bound observer and for any dead referent, since that count collapses to
0 once the strong count is 0 — and it reads the referent's value exactly in
the live case (strong count positive and at least one weak observer
outstanding, i.e. internal weak count at least 2). -/
theorem weak_display_spec (σ : Heap T) (w : WeakShared T) :
    (WeakShared.weak_count σ w = 0 →
      WeakShared.display σ w = some (σ, WeakOut.noRef)) ∧
    (∀ i b v, w.id = some i → getBox σ i = some b → 0 < b.strong →
      2 ≤ b.weakInternal → b.value = some v →
      ∃ σ1, WeakShared.display σ w = some (σ1, WeakOut.val v)) := by
  constructor
  · intro h
    simp [WeakShared.display, h]
  · intro i b v hid hbox hstrong hweak hval
    have hlt := lt_length_of_getBox_some hbox
    have hcount : WeakShared.weak_count σ w = b.weakInternal - 1 := by
      simp [WeakShared.weak_count, hid, hbox, hstrong]
    have hpos : 0 < WeakShared.weak_count σ w := by omega
    have hget := getBox_setBox_self
      (σ := σ) (i := i) (some { b with strong := b.strong + 1 }) hlt
    have hlt2 : i < (setBox σ i (some { b with strong := b.strong + 1 })).length := by
      rw [length_setBox]; exact hlt
    have hget2 := getBox_setBox_self
      (σ := setBox σ i (some { b with strong := b.strong + 1 })) (i := i)
      (some { b with strong := b.strong + 1 - 1 }) hlt2
    have hzero : ¬ b.strong = 0 := by omega
    rw [hval] at hget hget2
    simp only [Nat.add_sub_cancel] at hget2
    refine ⟨setBox (setBox σ i (some { b with strong := b.strong + 1 })) i
      (some { b with strong := b.strong + 1 - 1 }), ?_⟩
    simp [WeakShared.display, hpos, WeakShared.deref,
      WeakShared.as_ptr, WeakShared.upgrade, hid, hbox, hstrong,
      Shared.drop, Shared.new_from, Shared.as_ptr, hget, hzero,
      readPtr, hget2, hval]

/-- Witness for weak_display_spec: the never-bound observer prints the
sentinel, and a live bound observer prints the stored value. -/
theorem weak_display_spec_witness :
    (WeakShared.weak_count ([some ⟨1, 2, 0, some 5⟩] : Heap Nat) ⟨none⟩ = 0 ∧
     WeakShared.display ([some ⟨1, 2, 0, some 5⟩] : Heap Nat) ⟨none⟩
       = some ([some ⟨1, 2, 0, some 5⟩], WeakOut.noRef)) ∧
    ∃ σ1, WeakShared.display ([some ⟨1, 2, 0, some 5⟩] : Heap Nat) ⟨some 0⟩
       = some (σ1, WeakOut.val 5) :=
  ⟨⟨rfl, (weak_display_spec ([some ⟨1, 2, 0, some 5⟩] : Heap Nat) ⟨none⟩).1 rfl⟩,
    (weak_display_spec ([some ⟨1, 2, 0, some 5⟩] : Heap Nat) ⟨some 0⟩).2
      0 ⟨1, 2, 0, some 5⟩ 5 rfl rfl (by decide) (by decide) rfl⟩

/-- Claim C4, counterexample: on an allocation with strong count 0 and two
outstanding weak observers, the weak count read through a bound WeakShared is
0, not the number of observers. -/
theorem weak_count_dead_counterexample :
    WeakShared.strong_count ([some ⟨0, 2, 0, none⟩] : Heap Nat) ⟨some 0⟩ = 0 ∧
    2 ≤ (⟨0, 2, 0, (none : Option Nat)⟩ : RcBox Nat).weakInternal ∧
    WeakShared.weak_count ([some ⟨0, 2, 0, none⟩] : Heap Nat) ⟨some 0⟩ = 0 := by
  decide

/-- Claim C4 as amended: reading the weak count through a WeakShared stays
possible after the strong count has reached 0 (the operation is total and
cannot fail), but it then returns 0 regardless of the outstanding observers;
only while the strong count is positive does it report the number of weak
observers (internal weak count minus the implicit slot). -/
theorem weak_count_spec (σ : Heap T) (w : WeakShared T) (i : Nat) (b : RcBox T)
    (hid : w.id = some i) (hbox : getBox σ i = some b) :
    (b.strong = 0 → WeakShared.weak_count σ w = 0) ∧
    (0 < b.strong → WeakShared.weak_count σ w = b.weakInternal - 1) := by
  constructor <;> intro h <;> simp [WeakShared.weak_count, hid, hbox, h]

/-- Witness for weak_count_spec: on a dead allocation the read succeeds and
returns 0; on a live one it returns the observer count. -/
theorem weak_count_spec_witness :
    ((⟨0, 2, 0, (none : Option Nat)⟩ : RcBox Nat).strong = 0 ∧
      WeakShared.weak_count ([some ⟨0, 2, 0, none⟩] : Heap Nat) ⟨some 0⟩ = 0) ∧
    (0 < (⟨1, 3, 0, some 4⟩ : RcBox Nat).strong ∧
      WeakShared.weak_count ([some ⟨1, 3, 0, some 4⟩] : Heap Nat) ⟨some 0⟩
        = (⟨1, 3, 0, some 4⟩ : RcBox Nat).weakInternal - 1) :=
  ⟨⟨rfl, (weak_count_spec ([some ⟨0, 2, 0, none⟩] : Heap Nat) ⟨some 0⟩ 0 _ rfl rfl).1 rfl⟩,
    ⟨by decide,
      (weak_count_spec ([some ⟨1, 3, 0, some 4⟩] : Heap Nat) ⟨some 0⟩ 0 _ rfl rfl).2
        (by decide)⟩⟩

/-- Claim C5, counterexample: an allocation whose write guard is outstanding
(borrow flag -1, so a read acquisition would fail), yet formatting the
owning handle returns the stored value instead of signalling the error — the
formatting path reads through the raw pointer and never consults the borrow
flag. -/
theorem shared_display_write_guard_counterexample :
    (Shared.borrow ([some ⟨1, 1, -1, some 42⟩] : Heap Nat) ⟨0⟩).isSome = false ∧
    Shared.display ([some ⟨1, 1, -1, some 42⟩] : Heap Nat) ⟨0⟩ = some 42 := by
  decide

/-- Claim C5 as amended: formatting an owning handle reads the value through
the raw pointer without acquiring a read view, so whenever the value is still
live it returns that value — for every borrow-flag state, including one with
the write guard outstanding — and never signals the read acquisition
error. -/
theorem shared_display_spec (σ : Heap T) (s : Shared T) (b : RcBox T) (v : T)
    (hbox : getBox σ s.id = some b) (hval : b.value = some v) :
    Shared.display σ s = some v := by
  simp [Shared.display, Shared.deref, readPtr, Shared.as_ptr, hbox, hval]

/-- Witness for shared_display_spec: formatting with the write guard
outstanding still yields the value. -/
theorem shared_display_spec_witness :
    Shared.display ([some ⟨1, 1, -1, some 7⟩] : Heap Nat) ⟨0⟩ = some 7 :=
  shared_display_spec ([some ⟨1, 1, -1, some 7⟩] : Heap Nat) ⟨0⟩ ⟨1, 1, -1, some 7⟩ 7
    rfl rfl

/-- Claim C7: all clones of an owning handle share one underlying value —
starting from a guard-free allocation, after cloning, acquiring the write
guard through the original, assigning v1 and releasing the guard, a read
guard acquired through the clone observes v1. -/
theorem write_visible_to_clones (σ : Heap T) (s : Shared T) (b : RcBox T) (v1 : T)
    (hbox : getBox σ s.id = some b) (hflag : b.flag = 0) :
    ∃ σ2 g σ4 r,
      Shared.borrow_mut (Shared.clone σ s).1 s = some (σ2, g) ∧
      Shared.borrow (RefMutGuard.drop (RefMutGuard.set σ2 g v1) g) (Shared.clone σ s).2
        = some (σ4, r) ∧
      RefGuard.get σ4 r = some v1 := by
  have hlt := lt_length_of_getBox_some hbox
  have hget : ∀ ob : Option (RcBox T), getBox (setBox σ s.id ob) s.id = ob :=
    fun ob => getBox_setBox_self ob hlt
  refine ⟨setBox σ s.id (some ⟨b.strong + 1, b.weakInternal, -1, b.value⟩), ⟨s.id⟩,
    setBox σ s.id (some ⟨b.strong + 1, b.weakInternal, 1, some v1⟩), ⟨s.id⟩,
    ?_, ?_, ?_⟩ <;>
    simp [Shared.clone, Shared.borrow, Shared.borrow_mut, RefMutGuard.set,
      RefMutGuard.drop, RefGuard.get, readPtr, hbox, hflag, hget, setBox_setBox]

/-- Witness for write_visible_to_clones: writing 7 through the original
handle is observed as 7 through the clone's read guard. -/
theorem write_visible_to_clones_witness :
    ∃ σ2 g σ4 r,
      Shared.borrow_mut (Shared.clone ([some ⟨1, 1, 0, some 3⟩] : Heap Nat) ⟨0⟩).1 ⟨0⟩
        = some (σ2, g) ∧
      Shared.borrow (RefMutGuard.drop (RefMutGuard.set σ2 g 7) g)
          (Shared.clone ([some ⟨1, 1, 0, some 3⟩] : Heap Nat) ⟨0⟩).2 = some (σ4, r) ∧
      RefGuard.get σ4 r = some 7 :=
  write_visible_to_clones ([some ⟨1, 1, 0, some 3⟩] : Heap Nat) ⟨0⟩ ⟨1, 1, 0, some 3⟩ 7
    rfl rfl

/-- Claim C8: round-trip — construct an owning cell holding v, downgrade it,
upgrade the observer back, and read through the upgraded handle: the value
read equals v. -/
theorem round_trip (σ : Heap T) (v : T) :
    ∃ σ2 s2 σ3 r,
      WeakShared.upgrade (Shared.downgrade (Shared.new σ v).1 (Shared.new σ v).2).1
          (Shared.downgrade (Shared.new σ v).1 (Shared.new σ v).2).2
        = (σ2, some s2) ∧
      Shared.borrow σ2 s2 = some (σ3, r) ∧
      RefGuard.get σ3 r = some v := by
  have hn : σ.length < (σ ++ [some (⟨1, 1, 0, some v⟩ : RcBox T)]).length := by
    simp
  have hget : ∀ ob : Option (RcBox T),
      getBox (setBox (σ ++ [some ⟨1, 1, 0, some v⟩]) σ.length ob) σ.length = ob :=
    fun ob => getBox_setBox_self ob hn
  refine ⟨setBox (σ ++ [some ⟨1, 1, 0, some v⟩]) σ.length (some ⟨2, 2, 0, some v⟩),
    ⟨σ.length⟩,
    setBox (σ ++ [some ⟨1, 1, 0, some v⟩]) σ.length (some ⟨2, 2, 1, some v⟩),
    ⟨σ.length⟩, ?_, ?_, ?_⟩ <;>
    simp [Shared.new, Shared.downgrade, WeakShared.upgrade, Shared.borrow,
      RefGuard.get, readPtr, Shared.new_from, getBox_append, hget, setBox_setBox]

/-- Claim C9: on a freshly constructed cell (strong count 1, no observers
yet), downgrading and then cloning the resulting observer leaves a shared
weak count of 2 — read through either observer — while the strong count
remains 1. -/
theorem downgrade_clone_counts (σ : Heap T) (s : Shared T) (b : RcBox T)
    (hbox : getBox σ s.id = some b) (hstrong : b.strong = 1)
    (hweak : b.weakInternal = 1) :
    WeakShared.weak_count
        (WeakShared.clone (Shared.downgrade σ s).1 (Shared.downgrade σ s).2).1
        (Shared.downgrade σ s).2 = 2 ∧
    WeakShared.weak_count
        (WeakShared.clone (Shared.downgrade σ s).1 (Shared.downgrade σ s).2).1
        (WeakShared.clone (Shared.downgrade σ s).1 (Shared.downgrade σ s).2).2 = 2 ∧
    Shared.strong_count
        (WeakShared.clone (Shared.downgrade σ s).1 (Shared.downgrade σ s).2).1 s
      = 1 := by
  have hlt := lt_length_of_getBox_some hbox
  have hget : ∀ ob : Option (RcBox T), getBox (setBox σ s.id ob) s.id = ob :=
    fun ob => getBox_setBox_self ob hlt
  refine ⟨?_, ?_, ?_⟩ <;>
    simp [Shared.downgrade, WeakShared.clone, WeakShared.weak_count,
      Shared.strong_count, hbox, hget, setBox_setBox, hstrong, hweak]

/-- Witness for downgrade_clone_counts on a fresh one-owner allocation. -/
theorem downgrade_clone_counts_witness :
    WeakShared.weak_count
        (WeakShared.clone
          (Shared.downgrade ([some ⟨1, 1, 0, some 3⟩] : Heap Nat) ⟨0⟩).1
          (Shared.downgrade ([some ⟨1, 1, 0, some 3⟩] : Heap Nat) ⟨0⟩).2).1
        (Shared.downgrade ([some ⟨1, 1, 0, some 3⟩] : Heap Nat) ⟨0⟩).2 = 2 ∧
    WeakShared.weak_count
        (WeakShared.clone
          (Shared.downgrade ([some ⟨1, 1, 0, some 3⟩] : Heap Nat) ⟨0⟩).1
          (Shared.downgrade ([some ⟨1, 1, 0, some 3⟩] : Heap Nat) ⟨0⟩).2).1
        (WeakShared.clone
          (Shared.downgrade ([some ⟨1, 1, 0, some 3⟩] : Heap Nat) ⟨0⟩).1
          (Shared.downgrade ([some ⟨1, 1, 0, some 3⟩] : Heap Nat) ⟨0⟩).2).2 = 2 ∧
    Shared.strong_count
        (WeakShared.clone
          (Shared.downgrade ([some ⟨1, 1, 0, some 3⟩] : Heap Nat) ⟨0⟩).1
          (Shared.downgrade ([some ⟨1, 1, 0, some 3⟩] : Heap Nat) ⟨0⟩).2).1 ⟨0⟩
      = 1 :=
  downgrade_clone_counts ([some ⟨1, 1, 0, some 3⟩] : Heap Nat) ⟨0⟩ ⟨1, 1, 0, some 3⟩
    rfl rfl rfl

/-- Claim C10: on a live referent, the weak handle's raw-pointer operation
returns the same address as the originating owning handle's raw-pointer
operation, and — the temporary owning handle created by the internal upgrade
being dropped again — leaves the allocation, its strong count and its weak
count unchanged. -/
theorem weak_as_ptr_frame (σ : Heap T) (w : WeakShared T) (i : Nat) (b : RcBox T)
    (hid : w.id = some i) (hbox : getBox σ i = some b) (hstrong : 0 < b.strong) :
    ∃ σ1, WeakShared.as_ptr σ w = some (σ1, Shared.as_ptr (⟨i⟩ : Shared T)) ∧
      getBox σ1 i = some b ∧
      WeakShared.strong_count σ1 w = WeakShared.strong_count σ w ∧
      WeakShared.weak_count σ1 w = WeakShared.weak_count σ w := by
  have hlt := lt_length_of_getBox_some hbox
  have hget : ∀ ob : Option (RcBox T), getBox (setBox σ i ob) i = ob :=
    fun ob => getBox_setBox_self ob hlt
  have hzero : ¬ b.strong = 0 := by omega
  refine ⟨setBox σ i (some b), ?_, hget (some b), ?_, ?_⟩
  · simp [WeakShared.as_ptr, WeakShared.upgrade, hid, hbox, hstrong,
      Shared.drop, Shared.new_from, Shared.as_ptr, hget, setBox_setBox, hzero]
  · simp [WeakShared.strong_count, hid, hbox, hget]
  · simp [WeakShared.weak_count, hid, hbox, hget]

/-- Witness for weak_as_ptr_frame on a live one-owner allocation. -/
theorem weak_as_ptr_frame_witness :
    ∃ σ1, WeakShared.as_ptr ([some ⟨1, 1, 0, some 3⟩] : Heap Nat) ⟨some 0⟩
        = some (σ1, Shared.as_ptr (⟨0⟩ : Shared Nat)) ∧
      getBox σ1 0 = some ⟨1, 1, 0, some 3⟩ ∧
      WeakShared.strong_count σ1 (⟨some 0⟩ : WeakShared Nat)
        = WeakShared.strong_count ([some ⟨1, 1, 0, some 3⟩] : Heap Nat) ⟨some 0⟩ ∧
      WeakShared.weak_count σ1 (⟨some 0⟩ : WeakShared Nat)
        = WeakShared.weak_count ([some ⟨1, 1, 0, some 3⟩] : Heap Nat) ⟨some 0⟩ :=
  weak_as_ptr_frame ([some ⟨1, 1, 0, some 3⟩] : Heap Nat) ⟨some 0⟩ 0 ⟨1, 1, 0, some 3⟩
    rfl rfl (by decide)

end RcLib
